import Mathlib

/-!
Verification of the upload-intake-and-async-analysis pipeline of the
AI Resume Helper backend.

The definitions below are a shallow embedding of:
  * `src/backend/services/aiService.ts` (`AIService`: `analyzeResume`,
    `extractTextFromFile`, `buildAnalysisPrompt`, `callAIService`,
    `parseAnalysisResult`),
  * `src/backend/services/resumeService.ts` (`ResumeService`: `uploadResume`,
    `getResumeById`, `updateResumeStatus`, `updateResumeAnalysis`,
    `deleteResume`, `isAllowedMimeType`, `generateFileName`),
  * `src/backend/controllers/resumeController.ts` (`downloadResume`),
  * `src/backend/models/Resume.ts` (`ResumeStatus`, the record shape).

Modelling conventions:
  * The blob store (filesystem under the upload directory) and the record
    store (MongoDB collection) are association lists inside an explicit
    `PipelineState`; each service function passes the state explicitly.
  * Nondeterministic inputs of the code (uuid draws, `Date.now()`, the new
    MongoDB `_id`, the external completion-API outcome, injected store
    faults) are explicit parameters gathered in environment structures.
  * JSON numbers are modelled as `Int`.  The JavaScript coercions that
    arise when score fields hold non-numeric values (string concatenation,
    `NaN` arithmetic) are outside the modelled fragment; score computations
    return `none` there, and every theorem about scores stays inside the
    integer fragment via explicit hypotheses.
  * Timestamp record fields (`uploadDate`, `lastUpdated`) are not modelled;
    no claim refers to them.
-/

set_option autoImplicit false

namespace ResumeHelper

/-- JSON values as produced by `JSON.parse`, with numbers restricted to
the integer fragment (see the module docstring). -/
inductive Json where
  | null
  | bool (b : Bool)
  | num (n : Int)
  | str (s : String)
  | arr (elems : List Json)
  | obj (fields : List (String × Json))

namespace Json

/-- JavaScript property access `o.k` on a parsed JSON value: on objects the
last binding for the key wins (matching how `JSON.parse` collapses duplicate
keys), on every non-object value the result is `undefined`, modelled `none`. -/
def getField : Json → String → Option Json
  | obj fields, key => fields.foldl (fun acc p => if p.1 = key then some p.2 else acc) none
  | _, _ => none

/-- JavaScript property assignment `o.k = v` on a parsed JSON value:
overwrites every binding of the key (equivalent, under last-wins access, to
overwriting in place), appends when the key is absent, and is the identity
on non-objects. -/
def setField : Json → String → Json → Json
  | obj fields, key, v =>
      if fields.any (fun p => p.1 = key) then
        obj (fields.map (fun p => if p.1 = key then (key, v) else p))
      else
        obj (fields ++ [(key, v)])
  | j, _, _ => j

/-- JavaScript truthiness of a parsed JSON value (`NaN` cannot arise since
numbers are integers here). -/
def truthy : Json → Bool
  | null => false
  | bool b => b
  | num n => n ≠ 0
  | str s => s ≠ ""
  | arr _ => true
  | obj _ => true

end Json

/-! ### A strict JSON parser, modelling `JSON.parse`

Soundness is what the theorems rely on; where the model is incomplete
relative to the real `JSON.parse` (fractional/exponent numbers, `\u` string
escapes), parsing fails, and no theorem depends on those inputs. -/

/-- The insignificant whitespace characters of the JSON grammar. -/
def isJsonWs (c : Char) : Bool :=
  c = ' ' ∨ c = '\t' ∨ c = '\n' ∨ c = '\r'

/-- Drop leading JSON whitespace. -/
def skipWs : List Char → List Char
  | [] => []
  | c :: cs => if isJsonWs c then skipWs cs else c :: cs

/-- Decode a single JSON string escape character (the `\uXXXX` form is
outside the modelled fragment). -/
def escChar : Char → Option Char
  | '"' => some '"'
  | '\\' => some '\\'
  | '/' => some '/'
  | 'b' => some (Char.ofNat 8)
  | 'f' => some (Char.ofNat 12)
  | 'n' => some '\n'
  | 'r' => some '\r'
  | 't' => some '\t'
  | _ => none

/-- Parse the body of a JSON string after the opening quote, returning the
decoded characters and the remaining input.  Unescaped control characters
are rejected, as in strict JSON. -/
def parseStringBody : List Char → Option (List Char × List Char)
  | [] => none
  | '"' :: rest => some ([], rest)
  | '\\' :: rest =>
      match rest with
      | [] => none
      | e :: rest' =>
          match escChar e with
          | none => none
          | some c =>
              match parseStringBody rest' with
              | none => none
              | some (s, r) => some (c :: s, r)
  | c :: rest =>
      if c.toNat < 32 then none
      else
        match parseStringBody rest with
        | none => none
        | some (s, r) => some (c :: s, r)

/-- Parse an unsigned JSON integer (digits with the leading-zero rule);
fractional and exponent forms are outside the modelled fragment. -/
def parseNatNum (cs : List Char) : Option (Nat × List Char) :=
  let ds := cs.takeWhile Char.isDigit
  let rest := cs.dropWhile Char.isDigit
  if ds.isEmpty then none
  else if 1 < ds.length ∧ ds.head? = some '0' then none
  else
    match rest with
    | '.' :: _ => none
    | 'e' :: _ => none
    | 'E' :: _ => none
    | _ => some (ds.foldl (fun acc c => acc * 10 + (c.toNat - 48)) 0, rest)

/-- Parse a JSON number (optional minus sign, then an integer). -/
def parseNumber : List Char → Option (Json × List Char)
  | '-' :: rest =>
      match parseNatNum rest with
      | none => none
      | some (n, r) => some (Json.num (-(n : Int)), r)
  | cs =>
      match parseNatNum cs with
      | none => none
      | some (n, r) => some (Json.num (n : Int), r)

mutual

/-- Parse a single JSON value; `fuel` bounds the recursion depth. -/
def parseVal : Nat → List Char → Option (Json × List Char)
  | 0, _ => none
  | fuel + 1, cs =>
      match skipWs cs with
      | 'n' :: 'u' :: 'l' :: 'l' :: rest => some (Json.null, rest)
      | 't' :: 'r' :: 'u' :: 'e' :: rest => some (Json.bool true, rest)
      | 'f' :: 'a' :: 'l' :: 's' :: 'e' :: rest => some (Json.bool false, rest)
      | '"' :: rest =>
          match parseStringBody rest with
          | none => none
          | some (s, rest') => some (Json.str (String.mk s), rest')
      | c :: rest =>
          if c = Char.ofNat 123 then parseObjBody fuel rest
          else if c = '[' then parseArrBody fuel rest
          else if c = '-' ∨ c.isDigit then parseNumber (c :: rest)
          else none
      | [] => none

/-- Parse the body of a JSON object after the opening brace. -/
def parseObjBody : Nat → List Char → Option (Json × List Char)
  | 0, _ => none
  | fuel + 1, cs =>
      match skipWs cs with
      | c :: rest =>
          if c = Char.ofNat 125 then some (Json.obj [], rest)
          else parseMembers fuel (c :: rest) []
      | [] => none

/-- Parse one or more `"key": value` members of a JSON object, accumulating
bindings in source order (duplicates kept; access is last-wins). -/
def parseMembers : Nat → List Char → List (String × Json) → Option (Json × List Char)
  | 0, _, _ => none
  | fuel + 1, cs, acc =>
      match skipWs cs with
      | '"' :: rest =>
          match parseStringBody rest with
          | none => none
          | some (key, rest1) =>
              match skipWs rest1 with
              | ':' :: rest2 =>
                  match parseVal fuel rest2 with
                  | none => none
                  | some (v, rest3) =>
                      match skipWs rest3 with
                      | c :: rest4 =>
                          if c = ',' then
                            parseMembers fuel rest4 (acc ++ [(String.mk key, v)])
                          else if c = Char.ofNat 125 then
                            some (Json.obj (acc ++ [(String.mk key, v)]), rest4)
                          else none
                      | [] => none
              | _ => none
      | _ => none

/-- Parse the body of a JSON array after the opening bracket. -/
def parseArrBody : Nat → List Char → Option (Json × List Char)
  | 0, _ => none
  | fuel + 1, cs =>
      match skipWs cs with
      | ']' :: rest => some (Json.arr [], rest)
      | rest => parseElems fuel rest []

/-- Parse one or more elements of a JSON array. -/
def parseElems : Nat → List Char → List Json → Option (Json × List Char)
  | 0, _, _ => none
  | fuel + 1, cs, acc =>
      match parseVal fuel cs with
      | none => none
      | some (v, rest) =>
          match skipWs rest with
          | ',' :: rest2 => parseElems fuel rest2 (acc ++ [v])
          | ']' :: rest2 => some (Json.arr (acc ++ [v]), rest2)
          | _ => none

end

/-- Model of `JSON.parse`: strict parse of a whole string as one JSON value, with
only trailing whitespace allowed.  Returns `none` where the real parser
throws a `SyntaxError` (and also on inputs outside the modelled fragment,
which no theorem uses). -/
def jsonParse (s : String) : Option Json :=
  match parseVal (2 * s.length + 2) s.toList with
  | none => none
  | some (j, rest) => if (skipWs rest).isEmpty then some j else none

/-! ### The response-text extraction of `AIService.parseAnalysisResult`

The source runs `resultText.match(/\{[\s\S]*\}/)`: a greedy match whose
result, when it exists, spans from the first opening brace that has some
closing brace after it, up to the last closing brace of the whole text. -/

/-- Index of the first character satisfying `p`. -/
def firstIdx (p : Char → Bool) : List Char → Option Nat
  | [] => none
  | c :: cs => if p c then some 0 else (firstIdx p cs).map (· + 1)

/-- Index of the last character satisfying `p`. -/
def lastIdx (p : Char → Bool) (cs : List Char) : Option Nat :=
  (firstIdx p cs.reverse).map (fun k => cs.length - 1 - k)

/-- Whether a character is an opening brace. -/
def isOpenBrace (c : Char) : Bool := c = Char.ofNat 123

/-- Whether a character is a closing brace. -/
def isCloseBrace (c : Char) : Bool := c = Char.ofNat 125

/-- The greedy regex `\x7b[\s\S]*\x7d` of `parseAnalysisResult`: the match,
when some opening brace precedes some closing brace, runs from the first
opening brace to the last closing brace. -/
def jsonMatchL (cs : List Char) : Option (List Char) :=
  match firstIdx isOpenBrace cs, lastIdx isCloseBrace cs with
  | some i, some j => if i < j then some ((cs.drop i).take (j - i + 1)) else none
  | _, _ => none

/-- Model of `jsonMatchL` on strings. -/
def jsonMatchStr (s : String) : Option String :=
  (jsonMatchL s.toList).map fun cs => String.mk cs

/-- Modelled from the spec: helper scanning for the end of the first
balanced brace block; `depth` is the current nesting depth and `k` the
number of characters consumed so far. -/
def balancedEndLen : Nat → Nat → List Char → Option Nat
  | _, _, [] => none
  | depth, k, c :: cs =>
      if isOpenBrace c then balancedEndLen (depth + 1) (k + 1) cs
      else if isCloseBrace c then
        match depth with
        | 0 => none
        | 1 => some (k + 1)
        | d + 2 => balancedEndLen (d + 1) (k + 1) cs
      else balancedEndLen depth (k + 1) cs

/-- Modelled from the spec: "locate the first balanced `\x7b...\x7d` block"
(§4.2 step 6).  This is the comparator the claim C2 describes; it is NOT the
code's behavior, which is `jsonMatchL`. -/
def specFirstBalancedBlock (cs : List Char) : Option (List Char) :=
  match firstIdx isOpenBrace cs with
  | none => none
  | some i =>
      match balancedEndLen 0 0 (cs.drop i) with
      | none => none
      | some len => some ((cs.drop i).take len)

/-! ### Score synthesis and extraction (`AIService.parseAnalysisResult`) -/

/-- The zeroed default `scoreDetails` object synthesized by
`parseAnalysisResult` when the parsed JSON has no truthy `scoreDetails`. -/
def zeroScoreDetails : Json :=
  Json.obj [("relevanceScore", Json.num 0), ("completenessScore", Json.num 0),
            ("formattingScore", Json.num 0), ("languageScore", Json.num 0),
            ("overallScore", Json.num 0)]

/-- Model of `if (!analysisData.scoreDetails) analysisData.scoreDetails = {...zeros}`:
the zeroed default is installed whenever the field is absent or falsy. -/
def ensureScoreDetails (analysisData : Json) : Json :=
  match analysisData.getField "scoreDetails" with
  | some v =>
      if v.truthy then analysisData
      else analysisData.setField "scoreDetails" zeroScoreDetails
  | none => analysisData.setField "scoreDetails" zeroScoreDetails

/-- Model of `Math.round((relevance + completeness + formatting + language) / 4)` on
integer sub-scores: JavaScript `Math.round x = ⌊x + 1/2⌋`, which on the
quarter-integer `s/4` equals `⌊(s + 2)/4⌋`.  `none` marks results outside
the integer fragment (in JavaScript, `NaN` or a coerced value when some
sub-score is missing or non-numeric). -/
def meanScore (sd : Json) : Option Int :=
  match sd.getField "relevanceScore", sd.getField "completenessScore",
        sd.getField "formattingScore", sd.getField "languageScore" with
  | some (Json.num r), some (Json.num c), some (Json.num f), some (Json.num l) =>
      some (Int.fdiv (r + c + f + l + 2) 4)
  | _, _, _, _ => none

/-- Model of `analysisData.scoreDetails.overallScore || Math.round((...)/4)`: the
`||` takes `overallScore` only when truthy — a present-but-zero
`overallScore` falls through to the arithmetic mean.  `none` marks a result
outside the integer fragment (a truthy non-numeric `overallScore` passed
through verbatim, or a non-numeric mean). -/
def computeScore (sd : Json) : Option Int :=
  match sd.getField "overallScore" with
  | some (Json.num n) => if n = 0 then meanScore sd else some n
  | some v => if v.truthy then none else meanScore sd
  | none => meanScore sd

/-- Model of `AIService.parseAnalysisResult`: extract the greedy brace span, strictly
JSON-parse it, ensure `scoreDetails`, compute the score.  The parse-failure
message stands in for the engine-specific `SyntaxError` text. -/
def parseAnalysisResult (resultText : String) : Except String (Json × Option Int) :=
  match jsonMatchStr resultText with
  | none => Except.error "解析AI分析结果失败: 无法从AI响应中提取JSON数据"
  | some block =>
      match jsonParse block with
      | none => Except.error "解析AI分析结果失败: JSON解析错误"
      | some analysisData =>
          let ensured := ensureScoreDetails analysisData
          match ensured.getField "scoreDetails" with
          | some sd => Except.ok (ensured, computeScore sd)
          | none => Except.ok (ensured, none)

/-! ### Data model (`src/backend/models/Resume.ts`) -/

/-- The `ResumeStatus` enum. -/
inductive ResumeStatus where
  | uploaded
  | processing
  | analyzed
  | failed
deriving DecidableEq, Repr

/-- The persisted resume document.  The timestamp fields (`uploadDate`,
`lastUpdated`) are not modelled — no claim refers to them. -/
structure ResumeRecord where
  id : String
  userId : String
  fileName : String
  originalName : String
  mimeType : String
  fileSize : Nat
  filePath : String
  status : ResumeStatus
  jobTitle : Option String := none
  jobDescription : Option String := none
  analysis : Option Json := none
  score : Option Int := none
  error : Option String := none

/-- The persistent state: the blob store (files under the upload directory)
and the record store (the MongoDB collection), both as association lists. -/
structure PipelineState where
  blobs : List (String × List Nat)
  records : List ResumeRecord

/-- Read a blob (`fs.readFile` / `fs.existsSync` on the modelled store). -/
def blobGet (blobs : List (String × List Nat)) (path : String) : Option (List Nat) :=
  (blobs.find? (fun p => p.1 = path)).map (fun p => p.2)

/-- Whether a blob exists at `path` (`fs.existsSync`). -/
def blobExists (blobs : List (String × List Nat)) (path : String) : Bool :=
  (blobGet blobs path).isSome

/-- Write a blob (`fs.writeFile`): the new entry shadows any older entry at
the same path (overwrite semantics under `blobGet`). -/
def blobWrite (blobs : List (String × List Nat)) (path : String) (bytes : List Nat) :
    List (String × List Nat) :=
  (path, bytes) :: blobs

/-- Delete a blob (`fs.unlink`). -/
def blobDelete (blobs : List (String × List Nat)) (path : String) :
    List (String × List Nat) :=
  blobs.filter (fun p => ¬ p.1 = path)

/-- Model of `Resume.findById`: first record with the given id. -/
def findRecord (records : List ResumeRecord) (resumeId : String) : Option ResumeRecord :=
  records.find? (fun r => r.id = resumeId)

/-- Whether a record matches the optional owner filter. -/
def ownerMatches (r : ResumeRecord) : Option String → Bool
  | some u => r.userId = u
  | none => true

/-- Model of `Resume.findOne({_id, userId?})`: id plus optional owner filter. -/
def findRecordOwned (records : List ResumeRecord) (resumeId : String)
    (userId : Option String) : Option ResumeRecord :=
  records.find? (fun r => decide (r.id = resumeId) && ownerMatches r userId)

/-- Model of `resume.save()` on a loaded, mutated document: replace the stored
record with the same id. -/
def setRecord (records : List ResumeRecord) (r : ResumeRecord) : List ResumeRecord :=
  records.map (fun x => if x.id = r.id then r else x)

/-- The domain errors thrown by the services (`ApplicationError` codes and
the injected store failure propagated verbatim by `uploadResume`). -/
inductive DomainError where
  | notFound
  | unsupportedFileType
  | fileTooLarge
  | storeFailure
  | analysisFailed (msg : String)
deriving DecidableEq, Repr

/-! ### `ResumeService` -/

/-- The externally supplied upload configuration (`config.upload`). -/
structure UploadConfig where
  directory : String
  maxFileSize : Nat
  allowedMimeTypes : List String

/-- Model of `ResumeService.isAllowedMimeType`. -/
def isAllowedMimeType (cfg : UploadConfig) (mimeType : String) : Bool :=
  cfg.allowedMimeTypes.contains mimeType

/-- The basename characters: everything after the last path separator. -/
def basenameChars (cs : List Char) : List Char :=
  cs.foldl (fun acc c => if c = '/' then [] else acc ++ [c]) []

/-- Node `path.extname` (posix fragment): the substring of the basename
from its last dot, unless that dot is the leading character or the basename
is exactly `".."`. -/
def extname (p : String) : String :=
  match lastIdx (fun c => c = '.') (basenameChars p.toList) with
  | none => ""
  | some d =>
      if d = 0 then ""
      else if basenameChars p.toList = ['.', '.'] then ""
      else String.mk ((basenameChars p.toList).drop d)

/-- Model of `ResumeService.generateFileName`: `uuidv4() ++ "-" ++ Date.now() ++
path.extname(originalName)`; the uuid draw and the clock reading are
explicit parameters. -/
def generateFileName (originalName : String) (uuid : String) (timestamp : Nat) : String :=
  uuid ++ "-" ++ toString timestamp ++ extname originalName

/-- Model of `path.join(dir, name)` on the fragment used here (relative file name
under a directory). -/
def joinPath (dir name : String) : String :=
  dir ++ "/" ++ name

/-- Model of `ResumeService.uploadResume` options. -/
structure ResumeUploadOptions where
  originalName : String
  mimeType : String
  size : Nat
  buffer : List Nat
  userId : String
  jobTitle : Option String := none
  jobDescription : Option String := none

/-- The nondeterministic inputs of one `uploadResume` call, made explicit:
the uuid/clock draws of the try block, the SECOND uuid/clock draws made by
the catch-block cleanup when it re-calls `generateFileName`, the record id
the store assigns, and an injected `resume.save()` failure. -/
structure UploadEnv where
  cfg : UploadConfig
  uuidTry : String
  tsTry : Nat
  uuidCatch : String
  tsCatch : Nat
  newId : String
  saveFails : Bool

/-- The catch block of `uploadResume`: re-generates the file name with a
FRESH uuid draw and timestamp, and unlinks that path when it exists.  (The
unlink's own failure would be swallowed; it is not separately injected
because no claim exercises it.) -/
def uploadCleanup (env : UploadEnv) (opts : ResumeUploadOptions) (st : PipelineState) :
    PipelineState :=
  let cleanupPath :=
    joinPath env.cfg.directory (generateFileName opts.originalName env.uuidCatch env.tsCatch)
  if blobExists st.blobs cleanupPath then
    { st with blobs := blobDelete st.blobs cleanupPath }
  else st

/-- The blob path written by the try block of `uploadResume`:
`path.join(config.upload.directory, generateFileName(originalName))`. -/
def uploadFilePath (env : UploadEnv) (opts : ResumeUploadOptions) : String :=
  joinPath env.cfg.directory (generateFileName opts.originalName env.uuidTry env.tsTry)

/-- The fresh `Resume` document created by `uploadResume`. -/
def uploadedRecord (env : UploadEnv) (opts : ResumeUploadOptions) : ResumeRecord :=
  { id := env.newId, userId := opts.userId,
    fileName := generateFileName opts.originalName env.uuidTry env.tsTry,
    originalName := opts.originalName, mimeType := opts.mimeType,
    fileSize := opts.size, filePath := uploadFilePath env opts,
    status := ResumeStatus.uploaded,
    jobTitle := opts.jobTitle, jobDescription := opts.jobDescription }

/-- Model of `ResumeService.uploadResume`: validate MIME type, validate size, write
the blob, create and save the record; any thrown error goes through the
catch-block cleanup and is re-thrown. -/
def uploadResume (env : UploadEnv) (opts : ResumeUploadOptions) (st : PipelineState) :
    Except DomainError ResumeRecord × PipelineState :=
  if !(isAllowedMimeType env.cfg opts.mimeType) then
    (Except.error DomainError.unsupportedFileType, uploadCleanup env opts st)
  else if env.cfg.maxFileSize < opts.size then
    (Except.error DomainError.fileTooLarge, uploadCleanup env opts st)
  else
    let st1 : PipelineState :=
      { st with blobs := blobWrite st.blobs (uploadFilePath env opts) opts.buffer }
    if env.saveFails then
      (Except.error DomainError.storeFailure, uploadCleanup env opts st1)
    else
      (Except.ok (uploadedRecord env opts),
       { st1 with records := st1.records ++ [uploadedRecord env opts] })

/-- Model of `ResumeService.getResumeById`. -/
def getResumeById (resumeId : String) (userId : Option String) (st : PipelineState) :
    Except DomainError ResumeRecord :=
  match findRecordOwned st.records resumeId userId with
  | none => Except.error DomainError.notFound
  | some r => Except.ok r

/-- The record mutation performed by `updateResumeStatus`: set `status`,
and set `error` only when the argument is a truthy (non-empty) string. -/
def statusUpdatedRecord (r : ResumeRecord) (status : ResumeStatus) (error : Option String) :
    ResumeRecord :=
  { r with
    status := status
    error := match error with
             | some e => if e = "" then r.error else some e
             | none => r.error }

/-- Model of `ResumeService.updateResumeStatus`: load by id, mutate, save. -/
def updateResumeStatus (resumeId : String) (status : ResumeStatus) (error : Option String)
    (st : PipelineState) : Except DomainError (ResumeRecord × PipelineState) :=
  match findRecord st.records resumeId with
  | none => Except.error DomainError.notFound
  | some r =>
      Except.ok (statusUpdatedRecord r status error,
                 { st with records := setRecord st.records (statusUpdatedRecord r status error) })

/-- The record mutation performed by `updateResumeAnalysis`: set
`analysis`, set `score` when defined (the argument mirrors the JavaScript
`score?: number`, `none` = `undefined`, leaving the stored score
untouched), force `status := analyzed`. -/
def analysisUpdatedRecord (r : ResumeRecord) (analysis : Json) (score : Option Int) :
    ResumeRecord :=
  { r with
    analysis := some analysis
    score := match score with | some s => some s | none => r.score
    status := ResumeStatus.analyzed }

/-- Model of `ResumeService.updateResumeAnalysis`: load by id, mutate, save. -/
def updateResumeAnalysis (resumeId : String) (analysis : Json) (score : Option Int)
    (st : PipelineState) : Except DomainError (ResumeRecord × PipelineState) :=
  match findRecord st.records resumeId with
  | none => Except.error DomainError.notFound
  | some r =>
      Except.ok (analysisUpdatedRecord r analysis score,
                 { st with records := setRecord st.records (analysisUpdatedRecord r analysis score) })

/-- Model of `ResumeService.deleteResume`: load with optional owner filter (404 when
absent, nothing changed); best-effort unlink of the blob (`unlinkFails`
injects the swallowed failure); then `Resume.deleteOne({_id})`. -/
def deleteResume (unlinkFails : Bool) (resumeId : String) (userId : Option String)
    (st : PipelineState) : Except DomainError Unit × PipelineState :=
  match findRecordOwned st.records resumeId userId with
  | none => (Except.error DomainError.notFound, st)
  | some r =>
      let blobs' :=
        if blobExists st.blobs r.filePath && !unlinkFails then
          blobDelete st.blobs r.filePath
        else st.blobs
      (Except.ok (),
       { blobs := blobs', records := st.records.filter (fun x => ¬ x.id = resumeId) })

/-! ### `AIService` -/

/-- Model of `AIService.extractTextFromFile`: check existence, read the blob, then
branch on the MIME type (stubbed extractors for PDF/Word/images; plain text
is decoded byte-to-char, faithful to UTF-8 on the ASCII fragment). -/
def extractTextFromFile (blobs : List (String × List Nat)) (filePath mimeType : String) :
    Except String String :=
  match blobGet blobs filePath with
  | none => Except.error "文本提取失败: 文件不存在"
  | some bytes =>
      if mimeType = "application/pdf" then
        Except.ok "这里是从PDF提取的文本"
      else if mimeType = "application/vnd.openxmlformats-officedocument.wordprocessingml.document"
              ∨ mimeType = "application/msword" then
        Except.ok "这里是从Word文档提取的文本"
      else if mimeType = "text/plain" then
        Except.ok (String.mk (bytes.map Char.ofNat))
      else if mimeType = "image/jpeg" ∨ mimeType = "image/png" then
        Except.ok "这里是从图片OCR提取的文本"
      else
        Except.error ("文本提取失败: 不支持的文件类型: " ++ mimeType)

/-- The fixed instruction block appended by `buildAnalysisPrompt` (brace
characters written with their code-point escapes). -/
def promptInstructions : String :=
  "请提供以下分析结果：\n1. 技能列表（包括技能名称、水平、类别和相关性）\n2. 工作经历（包括职位、公司、时间段、职责描述和亮点）\n3. 教育背景（包括学校、学位、专业和时间段）\n4. 简历总结\n5. 优势和不足\n6. 针对职位的改进建议\n7. 关键词\n8. 评分（100分制，包括相关性、完整性、格式和语言）\n\n请以JSON格式返回，格式如下：\n\x7b\n  \"skills\": [\x7b\"name\": \"技能名称\", \"level\": \"水平\", \"category\": \"类别\", \"relevance\": 数值\x7d],\n  \"experience\": [\x7b\"title\": \"职位\", \"company\": \"公司\", \"startDate\": \"开始日期\", \"endDate\": \"结束日期\", \"description\": \"描述\", \"highlights\": [\"亮点1\", \"亮点2\"]\x7d],\n  \"education\": [\x7b\"institution\": \"学校\", \"degree\": \"学位\", \"field\": \"专业\", \"startDate\": \"开始日期\", \"endDate\": \"结束日期\", \"gpa\": 分数\x7d],\n  \"summary\": \"总结\",\n  \"strengths\": [\"优势1\", \"优势2\"],\n  \"weaknesses\": [\"不足1\", \"不足2\"],\n  \"recommendations\": [\"建议1\", \"建议2\"],\n  \"keywords\": [\"关键词1\", \"关键词2\"],\n  \"scoreDetails\": \x7b\n    \"relevanceScore\": 分数,\n    \"completenessScore\": 分数,\n    \"formattingScore\": 分数,\n    \"languageScore\": 分数,\n    \"overallScore\": 分数\n  \x7d\n\x7d"

/-- Model of `AIService.buildAnalysisPrompt`: resume text, optional job title and
description, then the fixed instruction block. -/
def buildAnalysisPrompt (resumeText : String) (jobTitle jobDescription : Option String) :
    String :=
  "请分析以下简历文本，提取关键信息并给出评价：\n\n" ++ resumeText ++ "\n\n"
    ++ (match jobTitle with | some t => "应聘职位: " ++ t ++ "\n\n" | none => "")
    ++ (match jobDescription with | some d => "职位描述: " ++ d ++ "\n\n" | none => "")
    ++ promptInstructions

/-- The outcome of the external completion-API call, injected as the
nondeterministic input of one `analyzeResume` run: `.ok text` is the
message content returned by the provider, `.error m` a transport/API
failure message. -/
structure AnalyzeEnv where
  aiResponse : Except String String

/-- Model of `AIService.callAIService` (provider fixed to the one implemented
branch): forwards the injected API outcome, wrapping failures. -/
def callAIService (env : AnalyzeEnv) (_prompt : String) : Except String String :=
  match env.aiResponse with
  | Except.ok text => Except.ok text
  | Except.error m => Except.error ("AI服务调用失败: " ++ m)

/-- Model of `error.message || '分析过程中发生错误'`: the default message used by the
catch block of `analyzeResume` when the thrown message is falsy (empty). -/
def failMsg (m : String) : String :=
  if m = "" then "分析过程中发生错误" else m

/-- The catch block of `analyzeResume` after the initial load succeeded:
persist `status=failed` with the message, then re-throw the wrapped
analysis error.  The `notFound` arm is the catch block's own re-thrown
`updateResumeStatus` failure (unreachable while the record exists). -/
def analyzeFailWith (resumeId : String) (st1 : PipelineState) (m : String) :
    Except DomainError ResumeRecord × List PipelineState :=
  match updateResumeStatus resumeId ResumeStatus.failed (some (failMsg m)) st1 with
  | Except.error _ => (Except.error DomainError.notFound, [st1])
  | Except.ok (_, st2) =>
      (Except.error (DomainError.analysisFailed ("简历分析失败: " ++ failMsg m)), [st1, st2])

/-- Model of `AIService.analyzeResume`.  Returns the thrown/returned result together
with the trace of persisted states, one entry per record-store write in
order; the final state is the trace's last entry (the input state when
nothing was written).  When the record is absent, the catch block's own
`updateResumeStatus(..., FAILED)` throws `notFound` before anything is
persisted, and that is the error that propagates.  Record-store writes on
an existing record are modelled as reliable, so the `notFound` arms of the
inner update calls are the unreachable re-throw paths of the catch block. -/
def analyzeResume (env : AnalyzeEnv) (resumeId : String) (st : PipelineState) :
    Except DomainError ResumeRecord × List PipelineState :=
  match getResumeById resumeId none st with
  | Except.error _ => (Except.error DomainError.notFound, [])
  | Except.ok resume =>
      match updateResumeStatus resumeId ResumeStatus.processing none st with
      | Except.error _ => (Except.error DomainError.notFound, [])
      | Except.ok (_, st1) =>
          match extractTextFromFile st1.blobs resume.filePath resume.mimeType with
          | Except.error m => analyzeFailWith resumeId st1 m
          | Except.ok resumeText =>
              match callAIService env
                      (buildAnalysisPrompt resumeText resume.jobTitle resume.jobDescription) with
              | Except.error m => analyzeFailWith resumeId st1 m
              | Except.ok analysisResult =>
                  match parseAnalysisResult analysisResult with
                  | Except.error m => analyzeFailWith resumeId st1 m
                  | Except.ok (analysis, score) =>
                      match updateResumeAnalysis resumeId analysis score st1 with
                      | Except.error _ => (Except.error DomainError.notFound, [st1])
                      | Except.ok (r2, st2) => (Except.ok r2, [st1, st2])

/-! ### `resumeController.downloadResume` -/

/-- The download endpoint: load the record through `getResumeById` with the
requester's owner filter, 404 when the blob is missing, else stream the
stored bytes. -/
def downloadResume (resumeId userId : String) (st : PipelineState) :
    Except DomainError (List Nat) :=
  match getResumeById resumeId (some userId) st with
  | Except.error e => Except.error e
  | Except.ok resume =>
      match blobGet st.blobs resume.filePath with
      | none => Except.error DomainError.notFound
      | some bytes => Except.ok bytes

/-! ### Concrete fixtures used by witnesses and counterexamples -/

/-- The MIME allow-list of `config/app.ts` (`config.upload.allowedMimeTypes`). -/
def defaultAllowedMimeTypes : List String :=
  ["application/pdf",
   "application/vnd.openxmlformats-officedocument.wordprocessingml.document",
   "application/msword", "text/plain", "image/jpeg", "image/png"]

/-- The default upload configuration of `config/app.ts`. -/
def sampleCfg : UploadConfig :=
  { directory := "uploads", maxFileSize := 10485760,
    allowedMimeTypes := defaultAllowedMimeTypes }

/-- A concrete upload environment: two distinct uuid draws, a fresh id. -/
def sampleUploadEnv : UploadEnv :=
  { cfg := sampleCfg,
    uuidTry := "aaaaaaaa-aaaa-4aaa-8aaa-aaaaaaaaaaaa", tsTry := 1700000000000,
    uuidCatch := "bbbbbbbb-bbbb-4bbb-8bbb-bbbbbbbbbbbb", tsCatch := 1700000000003,
    newId := "resume-1", saveFails := false }

/-- The same environment with an injected `resume.save()` failure. -/
def saveFailEnv : UploadEnv :=
  { sampleUploadEnv with saveFails := true }

/-- A small plain-text upload. -/
def sampleOpts : ResumeUploadOptions :=
  { originalName := "cv.txt", mimeType := "text/plain", size := 2048,
    buffer := [104, 101, 108, 108, 111], userId := "guest" }

/-- An upload with a MIME type outside the allow-list. -/
def badTypeOpts : ResumeUploadOptions :=
  { originalName := "cv.exe", mimeType := "application/x-msdownload", size := 10,
    buffer := [77, 90], userId := "guest" }

/-- The empty pipeline state. -/
def emptyState : PipelineState := { blobs := [], records := [] }

/-- A stored resume record. -/
def sampleRecord : ResumeRecord :=
  { id := "resume-1", userId := "guest", fileName := "f.txt", originalName := "cv.txt",
    mimeType := "text/plain", fileSize := 2, filePath := "uploads/f.txt",
    status := ResumeStatus.uploaded }

/-- A state holding `sampleRecord` and its blob. -/
def sampleState : PipelineState :=
  { blobs := [("uploads/f.txt", [104, 105])], records := [sampleRecord] }

/-- A completion response whose `scoreDetails.overallScore` is present but
zero while the four sub-scores are 40. -/
def zeroOverallText : String :=
  "\x7b\"scoreDetails\":\x7b\"relevanceScore\":40,\"completenessScore\":40,\"formattingScore\":40,\"languageScore\":40,\"overallScore\":0\x7d\x7d"

/-- The JSON value `JSON.parse` yields on `zeroOverallText`. -/
def zeroOverallJson : Json :=
  Json.obj [("scoreDetails",
    Json.obj [("relevanceScore", Json.num 40), ("completenessScore", Json.num 40),
              ("formattingScore", Json.num 40), ("languageScore", Json.num 40),
              ("overallScore", Json.num 0)])]

/-- A response text holding two separate JSON objects with junk between. -/
def twoBlocksText : String := "\x7b\"a\":1\x7d x \x7b\"b\":2\x7d"

/-- An injected completion-API outcome with no brace block in the text. -/
def noBlockEnv : AnalyzeEnv := { aiResponse := Except.ok "There is no JSON here." }

/-- An injected completion-API outcome whose only brace block is `\x7b\x7d`. -/
def emptyObjEnv : AnalyzeEnv := { aiResponse := Except.ok "result: \x7b\x7d done" }

/-- An injected completion-API outcome returning `zeroOverallText`. -/
def zeroOverallEnv : AnalyzeEnv := { aiResponse := Except.ok zeroOverallText }

/-- The JSON block of the spec's §8 scenario response (sub-scores 50/60/70/80,
explicit `overallScore` 65). -/
def scenario65Block : String :=
  "\x7b\"skills\":[],\"experience\":[],\"education\":[],\"scoreDetails\":\x7b\"relevanceScore\":50,\"completenessScore\":60,\"formattingScore\":70,\"languageScore\":80,\"overallScore\":65\x7d\x7d"

/-- The spec's §8 scenario response text. -/
def scenario65Text : String := "Here is the result: " ++ scenario65Block

/-- The parsed `scoreDetails` of the scenario response. -/
def scenario65Sd : Json :=
  Json.obj [("relevanceScore", Json.num 50), ("completenessScore", Json.num 60),
            ("formattingScore", Json.num 70), ("languageScore", Json.num 80),
            ("overallScore", Json.num 65)]

/-- The parsed JSON of the scenario response. -/
def scenario65Json : Json :=
  Json.obj [("skills", Json.arr []), ("experience", Json.arr []),
            ("education", Json.arr []), ("scoreDetails", scenario65Sd)]

/-- The allowed moves of the record-status state machine: stutter,
(re-)enter `processing` from any state, or leave `processing` for one of
the terminal states. -/
def allowedStep (s s' : ResumeStatus) : Prop :=
  s' = s ∨ s' = ResumeStatus.processing ∨
    (s = ResumeStatus.processing ∧
      (s' = ResumeStatus.analyzed ∨ s' = ResumeStatus.failed))

/-- Adjacent pairs of a write trace, starting from an initial state. -/
def chainSteps (s0 : PipelineState) : List PipelineState → List (PipelineState × PipelineState)
  | [] => []
  | s :: rest => (s0, s) :: chainSteps s rest

/-! ### Helper lemmas about the store operations -/

theorem findRecord_id (l : List ResumeRecord) (rid : String) (r : ResumeRecord)
    (h : findRecord l rid = some r) : r.id = rid := by
  unfold findRecord at h
  have hp := List.find?_some h
  exact of_decide_eq_true hp

theorem findRecordOwned_none_owner (l : List ResumeRecord) (rid : String) :
    findRecordOwned l rid none = findRecord l rid := by
  unfold findRecordOwned findRecord
  congr 1
  funext r
  simp [ownerMatches]

theorem findRecord_cons (x : ResumeRecord) (xs : List ResumeRecord) (rid : String) :
    findRecord (x :: xs) rid = if x.id = rid then some x else findRecord xs rid := by
  unfold findRecord
  by_cases hx : x.id = rid
  · rw [if_pos hx, List.find?_cons_of_pos]
    exact decide_eq_true hx
  · rw [if_neg hx, List.find?_cons_of_neg]
    simpa using hx

theorem findRecordOwned_cons (x : ResumeRecord) (xs : List ResumeRecord) (rid : String)
    (u : Option String) :
    findRecordOwned (x :: xs) rid u =
      if x.id = rid ∧ ownerMatches x u = true then some x else findRecordOwned xs rid u := by
  unfold findRecordOwned
  by_cases hx : x.id = rid ∧ ownerMatches x u = true
  · rw [if_pos hx, List.find?_cons_of_pos]
    simp [hx.1, hx.2]
  · rw [if_neg hx, List.find?_cons_of_neg]
    simp only [Bool.and_eq_true, decide_eq_true_eq]
    exact fun h' => hx ⟨h'.1, h'.2⟩

theorem setRecord_cons (x : ResumeRecord) (xs : List ResumeRecord) (rn : ResumeRecord) :
    setRecord (x :: xs) rn = (if x.id = rn.id then rn else x) :: setRecord xs rn := rfl

theorem findRecord_setRecord_ne (l : List ResumeRecord) (rn : ResumeRecord) (rid : String)
    (h : rid ≠ rn.id) : findRecord (setRecord l rn) rid = findRecord l rid := by
  induction l with
  | nil => rfl
  | cons x xs ih =>
      rw [setRecord_cons, findRecord_cons, findRecord_cons]
      by_cases hx : x.id = rn.id
      · rw [if_pos hx]
        have h1 : ¬ rn.id = rid := fun hc => h hc.symm
        have h2 : ¬ x.id = rid := fun hc => h (hc.symm.trans hx)
        rw [if_neg h1, if_neg h2, ih]
      · rw [if_neg hx]
        by_cases hxr : x.id = rid
        · rw [if_pos hxr, if_pos hxr]
        · rw [if_neg hxr, if_neg hxr, ih]

theorem findRecord_setRecord_eq (l : List ResumeRecord) (rn : ResumeRecord) (r : ResumeRecord)
    (h : findRecord l rn.id = some r) : findRecord (setRecord l rn) rn.id = some rn := by
  induction l with
  | nil => simp [findRecord] at h
  | cons x xs ih =>
      rw [findRecord_cons] at h
      rw [setRecord_cons, findRecord_cons]
      by_cases hx : x.id = rn.id
      · rw [if_pos hx, if_pos rfl]
      · rw [if_neg hx, if_neg hx]
        rw [if_neg hx] at h
        exact ih h

theorem findRecord_append_left (l1 l2 : List ResumeRecord) (rid : String) (r : ResumeRecord)
    (h : findRecord l1 rid = some r) : findRecord (l1 ++ l2) rid = some r := by
  induction l1 with
  | nil => simp [findRecord] at h
  | cons x xs ih =>
      rw [findRecord_cons] at h
      rw [List.cons_append, findRecord_cons]
      by_cases hx : x.id = rid
      · rw [if_pos hx] at h ⊢
        exact h
      · rw [if_neg hx] at h ⊢
        exact ih h

theorem findRecordOwned_none_of_findRecord_none (l : List ResumeRecord) (rid : String)
    (u : Option String) (h : findRecord l rid = none) :
    findRecordOwned l rid u = none := by
  induction l with
  | nil => rfl
  | cons x xs ih =>
      rw [findRecord_cons] at h
      rw [findRecordOwned_cons]
      by_cases hx : x.id = rid
      · rw [if_pos hx] at h
        exact absurd h (by simp)
      · rw [if_neg hx] at h
        rw [if_neg (fun hc => hx hc.1)]
        exact ih h

theorem findRecordOwned_append_singleton (l : List ResumeRecord) (rec : ResumeRecord)
    (u : Option String) (hnone : findRecord l rec.id = none)
    (hown : ownerMatches rec u = true) :
    findRecordOwned (l ++ [rec]) rec.id u = some rec := by
  induction l with
  | nil =>
      rw [List.nil_append, findRecordOwned_cons, if_pos ⟨rfl, hown⟩]
  | cons x xs ih =>
      rw [findRecord_cons] at hnone
      rw [List.cons_append, findRecordOwned_cons]
      by_cases hx : x.id = rec.id
      · rw [if_pos hx] at hnone
        exact absurd hnone (by simp)
      · rw [if_neg hx] at hnone
        rw [if_neg (fun hc => hx hc.1)]
        exact ih hnone

theorem blobGet_write_self (blobs : List (String × List Nat)) (p : String) (b : List Nat) :
    blobGet (blobWrite blobs p b) p = some b := by
  simp [blobGet, blobWrite, List.find?]

theorem findRecord_setRecord_eq' (l : List ResumeRecord) (rn : ResumeRecord) (rid : String)
    (r : ResumeRecord) (hfind : findRecord l rid = some r) (hid : rn.id = rid) :
    findRecord (setRecord l rn) rid = some rn := by
  subst hid
  exact findRecord_setRecord_eq l rn r hfind

/-! ### Equation lemmas for the service operations -/

theorem failMsg_ne (m : String) : failMsg m ≠ "" := by
  unfold failMsg
  by_cases hm : m = ""
  · rw [if_pos hm]
    decide
  · rw [if_neg hm]
    exact hm

theorem statusUpdatedRecord_none (r : ResumeRecord) (s : ResumeStatus) :
    statusUpdatedRecord r s none = { r with status := s } := rfl

theorem statusUpdatedRecord_some (r : ResumeRecord) (s : ResumeStatus) (e : String)
    (he : e ≠ "") :
    statusUpdatedRecord r s (some e) = { r with status := s, error := some e } := by
  have h0 : statusUpdatedRecord r s (some e)
      = { r with status := s, error := if e = "" then r.error else some e } := rfl
  rw [h0, if_neg he]

theorem getResumeById_none_eq (resumeId : String) (st : PipelineState) (r : ResumeRecord)
    (hfind : findRecord st.records resumeId = some r) :
    getResumeById resumeId none st = Except.ok r := by
  unfold getResumeById
  rw [findRecordOwned_none_owner, hfind]

theorem updateResumeStatus_eq (resumeId : String) (s : ResumeStatus) (err : Option String)
    (st : PipelineState) (r : ResumeRecord) (hfind : findRecord st.records resumeId = some r) :
    updateResumeStatus resumeId s err st =
      Except.ok (statusUpdatedRecord r s err,
                 { st with records := setRecord st.records (statusUpdatedRecord r s err) }) := by
  unfold updateResumeStatus
  rw [hfind]

theorem updateResumeAnalysis_eq (resumeId : String) (a : Json) (sc : Option Int)
    (st : PipelineState) (r : ResumeRecord) (hfind : findRecord st.records resumeId = some r) :
    updateResumeAnalysis resumeId a sc st =
      Except.ok (analysisUpdatedRecord r a sc,
                 { st with records := setRecord st.records (analysisUpdatedRecord r a sc) }) := by
  unfold updateResumeAnalysis
  rw [hfind]

theorem analyzeFailWith_eq (resumeId : String) (st1 : PipelineState) (m : String)
    (r1 : ResumeRecord) (hfind : findRecord st1.records resumeId = some r1) :
    analyzeFailWith resumeId st1 m =
      (Except.error (DomainError.analysisFailed ("简历分析失败: " ++ failMsg m)),
       [st1,
        { st1 with
          records := setRecord st1.records
              { r1 with status := ResumeStatus.failed, error := some (failMsg m) } }]) := by
  unfold analyzeFailWith
  rw [updateResumeStatus_eq _ _ _ _ _ hfind, statusUpdatedRecord_some _ _ _ (failMsg_ne m)]

theorem callAIService_ok (env : AnalyzeEnv) (p t : String)
    (h : callAIService env p = Except.ok t) : env.aiResponse = Except.ok t := by
  unfold callAIService at h
  cases henv : env.aiResponse with
  | ok s =>
      rw [henv] at h
      injection h with h'
      rw [h']
  | error m =>
      rw [henv] at h
      cases h

theorem analyzeResume_not_found (env : AnalyzeEnv) (resumeId : String) (st : PipelineState)
    (h : findRecord st.records resumeId = none) :
    analyzeResume env resumeId st = (Except.error DomainError.notFound, []) := by
  unfold analyzeResume getResumeById
  rw [findRecordOwned_none_owner, h]

theorem analyzeResume_unfold (env : AnalyzeEnv) (resumeId : String) (st : PipelineState)
    (r : ResumeRecord) (hfind : findRecord st.records resumeId = some r) :
    analyzeResume env resumeId st =
      match extractTextFromFile st.blobs r.filePath r.mimeType with
      | Except.error m =>
          analyzeFailWith resumeId
            { st with records := setRecord st.records { r with status := ResumeStatus.processing } } m
      | Except.ok resumeText =>
          match callAIService env (buildAnalysisPrompt resumeText r.jobTitle r.jobDescription) with
          | Except.error m =>
              analyzeFailWith resumeId
                { st with records := setRecord st.records { r with status := ResumeStatus.processing } } m
          | Except.ok analysisResult =>
              match parseAnalysisResult analysisResult with
              | Except.error m =>
                  analyzeFailWith resumeId
                    { st with records := setRecord st.records { r with status := ResumeStatus.processing } } m
              | Except.ok (analysis, score) =>
                  match updateResumeAnalysis resumeId analysis score
                          { st with records := setRecord st.records { r with status := ResumeStatus.processing } } with
                  | Except.error _ =>
                      (Except.error DomainError.notFound,
                       [{ st with records := setRecord st.records { r with status := ResumeStatus.processing } }])
                  | Except.ok (r2, st2) =>
                      (Except.ok r2,
                       [{ st with records := setRecord st.records { r with status := ResumeStatus.processing } },
                        st2]) := by
  unfold analyzeResume
  rw [getResumeById_none_eq _ _ _ hfind]
  rw [updateResumeStatus_eq _ ResumeStatus.processing none _ _ hfind]
  rfl

/-- Shape of one `analyzeResume` run on an existing record: exactly two
record-store writes happen — the forced `processing` write, then either the
`failed` write of the catch block or the `analyzed` write — and the final
state's record at `resumeId` is the returned/last-written record. -/
theorem analyzeResume_found (env : AnalyzeEnv) (resumeId : String) (st : PipelineState)
    (r : ResumeRecord) (hfind : findRecord st.records resumeId = some r) :
    ∃ rfin : ResumeRecord,
      (analyzeResume env resumeId st).2 =
        [{ st with records := setRecord st.records { r with status := ResumeStatus.processing } },
         { st with records :=
            setRecord (setRecord st.records { r with status := ResumeStatus.processing }) rfin }] ∧
      findRecord
        (setRecord (setRecord st.records { r with status := ResumeStatus.processing }) rfin)
        resumeId = some rfin ∧
      ((∃ msg, msg ≠ "" ∧
          rfin = { r with status := ResumeStatus.failed, error := some msg } ∧
          (analyzeResume env resumeId st).1 =
            Except.error (DomainError.analysisFailed ("简历分析失败: " ++ msg))) ∨
       (∃ text analysis score, env.aiResponse = Except.ok text ∧
          parseAnalysisResult text = Except.ok (analysis, score) ∧
          rfin = { r with
                   status := ResumeStatus.analyzed
                   analysis := some analysis
                   score := match score with | some s => some s | none => r.score } ∧
          (analyzeResume env resumeId st).1 = Except.ok rfin)) := by
  have hid : r.id = resumeId := findRecord_id _ _ _ hfind
  have hfind1 :
      findRecord (setRecord st.records { r with status := ResumeStatus.processing }) resumeId
        = some { r with status := ResumeStatus.processing } :=
    findRecord_setRecord_eq' st.records _ resumeId r hfind hid
  rw [analyzeResume_unfold env resumeId st r hfind]
  cases hE : extractTextFromFile st.blobs r.filePath r.mimeType with
  | error m =>
      dsimp only
      rw [analyzeFailWith_eq resumeId _ m _ hfind1]
      exact ⟨{ r with status := ResumeStatus.failed, error := some (failMsg m) },
        rfl,
        findRecord_setRecord_eq' _ _ _ _ hfind1 hid,
        Or.inl ⟨failMsg m, failMsg_ne m, rfl, rfl⟩⟩
  | ok resumeText =>
      dsimp only
      cases hC : callAIService env (buildAnalysisPrompt resumeText r.jobTitle r.jobDescription) with
      | error m =>
          dsimp only
          rw [analyzeFailWith_eq resumeId _ m _ hfind1]
          exact ⟨{ r with status := ResumeStatus.failed, error := some (failMsg m) },
            rfl,
            findRecord_setRecord_eq' _ _ _ _ hfind1 hid,
            Or.inl ⟨failMsg m, failMsg_ne m, rfl, rfl⟩⟩
      | ok analysisResult =>
          dsimp only
          cases hP : parseAnalysisResult analysisResult with
          | error m =>
              dsimp only
              rw [analyzeFailWith_eq resumeId _ m _ hfind1]
              exact ⟨{ r with status := ResumeStatus.failed, error := some (failMsg m) },
                rfl,
                findRecord_setRecord_eq' _ _ _ _ hfind1 hid,
                Or.inl ⟨failMsg m, failMsg_ne m, rfl, rfl⟩⟩
          | ok pair =>
              obtain ⟨analysis, score⟩ := pair
              have h2 := updateResumeAnalysis_eq resumeId analysis score
                { st with records := setRecord st.records { r with status := ResumeStatus.processing } }
                _ hfind1
              dsimp only
              rw [h2]
              exact ⟨analysisUpdatedRecord { r with status := ResumeStatus.processing } analysis score,
                rfl,
                findRecord_setRecord_eq' _ _ _ _ hfind1 hid,
                Or.inr ⟨analysisResult, analysis, score, callAIService_ok _ _ _ hC, hP, rfl, rfl⟩⟩

theorem uploadCleanup_fresh (env : UploadEnv) (opts : ResumeUploadOptions) (st : PipelineState)
    (hfresh : blobExists st.blobs
        (joinPath env.cfg.directory
          (generateFileName opts.originalName env.uuidCatch env.tsCatch)) = false) :
    uploadCleanup env opts st = st := by
  unfold uploadCleanup
  simp [hfresh]

theorem uploadResume_success (env : UploadEnv) (opts : ResumeUploadOptions) (st : PipelineState)
    (hmime : isAllowedMimeType env.cfg opts.mimeType = true)
    (hsize : ¬ env.cfg.maxFileSize < opts.size)
    (hsave : env.saveFails = false) :
    uploadResume env opts st =
      (Except.ok (uploadedRecord env opts),
       { blobs := blobWrite st.blobs (uploadFilePath env opts) opts.buffer,
         records := st.records ++ [uploadedRecord env opts] }) := by
  simp [uploadResume, hmime, hsave, hsize]

theorem string_append_left_inj (u1 u2 a b : String) (hlen : u1.length = u2.length)
    (h : u1 ++ a = u2 ++ b) : u1 = u2 := by
  have hdata := congrArg String.data h
  rw [String.data_append, String.data_append] at hdata
  exact String.ext
    (List.append_inj hdata (show u1.data.length = u2.data.length from hlen)).1

theorem uploadCleanup_records (env : UploadEnv) (opts : ResumeUploadOptions)
    (st : PipelineState) : (uploadCleanup env opts st).records = st.records := by
  unfold uploadCleanup
  dsimp only
  split
  · rfl
  · rfl

theorem uploadResume_records_shape (env : UploadEnv) (opts : ResumeUploadOptions)
    (st : PipelineState) :
    (uploadResume env opts st).2.records = st.records ∨
    (uploadResume env opts st).2.records = st.records ++ [uploadedRecord env opts] := by
  unfold uploadResume
  by_cases h1 : (!(isAllowedMimeType env.cfg opts.mimeType)) = true
  · rw [if_pos h1]
    left
    exact uploadCleanup_records env opts st
  · rw [if_neg h1]
    by_cases h2 : env.cfg.maxFileSize < opts.size
    · rw [if_pos h2]
      left
      exact uploadCleanup_records env opts st
    · rw [if_neg h2]
      dsimp only
      by_cases h3 : env.saveFails = true
      · rw [if_pos h3]
        left
        exact uploadCleanup_records env opts _
      · rw [if_neg h3]
        right
        rfl

theorem extractTextFromFile_text_plain (blobs : List (String × List Nat)) (fp : String)
    (bytes : List Nat) (hb : blobGet blobs fp = some bytes) :
    extractTextFromFile blobs fp "text/plain"
      = Except.ok (String.mk (bytes.map Char.ofNat)) := by
  unfold extractTextFromFile
  rw [hb]
  rfl

theorem parseAnalysisResult_empty_object (t : String)
    (hmatch : jsonMatchStr t = some "\x7b\x7d") :
    parseAnalysisResult t
      = Except.ok (Json.obj [("scoreDetails", zeroScoreDetails)], some 0) := by
  unfold parseAnalysisResult
  rw [hmatch]
  rfl

/-! ### Index lemmas for the greedy match -/

theorem firstIdx_sat (p : Char → Bool) (cs : List Char) (i : Nat)
    (h : firstIdx p cs = some i) :
    ∃ c, cs[i]? = some c ∧ p c = true := by
  induction cs generalizing i with
  | nil => cases h
  | cons c cs ih =>
      unfold firstIdx at h
      by_cases hc : p c
      · rw [if_pos hc] at h
        obtain rfl : (0 : Nat) = i := Option.some.inj h
        exact ⟨c, by simp, hc⟩
      · rw [if_neg hc] at h
        cases hfi : firstIdx p cs with
        | none => rw [hfi] at h; cases h
        | some i' =>
            rw [hfi] at h
            obtain rfl : i' + 1 = i := Option.some.inj h
            obtain ⟨c', hc', hp'⟩ := ih i' hfi
            exact ⟨c', by simpa using hc', hp'⟩

theorem firstIdx_lt_length (p : Char → Bool) (cs : List Char) (i : Nat)
    (h : firstIdx p cs = some i) : i < cs.length := by
  obtain ⟨c, hc, _⟩ := firstIdx_sat p cs i h
  exact (List.getElem?_eq_some.mp hc).1

theorem firstIdx_min (p : Char → Bool) (cs : List Char) (i : Nat)
    (h : firstIdx p cs = some i) :
    ∀ k c, k < i → cs[k]? = some c → p c = false := by
  induction cs generalizing i with
  | nil => cases h
  | cons c cs ih =>
      unfold firstIdx at h
      by_cases hc : p c
      · rw [if_pos hc] at h
        obtain rfl : (0 : Nat) = i := Option.some.inj h
        intro k c' hk
        exact absurd hk (Nat.not_lt_zero k)
      · rw [if_neg hc] at h
        cases hfi : firstIdx p cs with
        | none => rw [hfi] at h; cases h
        | some i' =>
            rw [hfi] at h
            obtain rfl : i' + 1 = i := Option.some.inj h
            intro k c' hk hkc
            cases k with
            | zero =>
                rw [List.getElem?_cons_zero] at hkc
                obtain rfl : c = c' := Option.some.inj hkc
                exact Bool.not_eq_true _ ▸ (by simpa using hc)
            | succ k' =>
                rw [List.getElem?_cons_succ] at hkc
                exact ih i' hfi k' c' (Nat.lt_of_succ_lt_succ hk) hkc

theorem firstIdx_of_sat (p : Char → Bool) (cs : List Char) (k : Nat) (c : Char)
    (hk : cs[k]? = some c) (hp : p c = true) :
    ∃ i, firstIdx p cs = some i ∧ i ≤ k := by
  induction cs generalizing k with
  | nil => cases hk
  | cons c0 cs ih =>
      unfold firstIdx
      by_cases hc : p c0
      · exact ⟨0, by rw [if_pos hc], Nat.zero_le k⟩
      · rw [if_neg hc]
        cases k with
        | zero =>
            rw [List.getElem?_cons_zero] at hk
            obtain rfl : c0 = c := Option.some.inj hk
            exact absurd hp (by simpa using hc)
        | succ k' =>
            rw [List.getElem?_cons_succ] at hk
            obtain ⟨i', hfi, hle⟩ := ih k' hk
            exact ⟨i' + 1, by rw [hfi]; rfl, Nat.succ_le_succ hle⟩

theorem getElem?_reverse_idx (cs : List Char) (k : Nat) (hk : k < cs.length) :
    cs.reverse[k]? = cs[cs.length - 1 - k]? := by
  rw [List.getElem?_eq_getElem (by simpa using hk),
    List.getElem?_eq_getElem (by omega : cs.length - 1 - k < cs.length)]
  congr 1
  rw [List.getElem_reverse]

theorem lastIdx_sat (p : Char → Bool) (cs : List Char) (j : Nat)
    (h : lastIdx p cs = some j) :
    ∃ c, cs[j]? = some c ∧ p c = true := by
  unfold lastIdx at h
  cases hf : firstIdx p cs.reverse with
  | none => rw [hf] at h; cases h
  | some m =>
      rw [hf] at h
      obtain rfl : cs.length - 1 - m = j := Option.some.inj h
      obtain ⟨c, hc, hp⟩ := firstIdx_sat p cs.reverse m hf
      have hm : m < cs.length := by
        have := firstIdx_lt_length p cs.reverse m hf
        simpa using this
      rw [getElem?_reverse_idx cs m hm] at hc
      exact ⟨c, hc, hp⟩

theorem lastIdx_max (p : Char → Bool) (cs : List Char) (j : Nat)
    (h : lastIdx p cs = some j) :
    ∀ k c, j < k → cs[k]? = some c → p c = false := by
  unfold lastIdx at h
  cases hf : firstIdx p cs.reverse with
  | none => rw [hf] at h; cases h
  | some m =>
      rw [hf] at h
      obtain rfl : cs.length - 1 - m = j := Option.some.inj h
      have hm : m < cs.length := by
        have := firstIdx_lt_length p cs.reverse m hf
        simpa using this
      intro k c hjk hkc
      have hklen : k < cs.length := (List.getElem?_eq_some.mp hkc).1
      have hrev : cs.reverse[cs.length - 1 - k]? = cs[k]? := by
        rw [getElem?_reverse_idx cs (cs.length - 1 - k) (by omega)]
        congr 1
        omega
      exact firstIdx_min p cs.reverse m hf (cs.length - 1 - k) c (by omega)
        (hrev.trans hkc)

theorem lastIdx_of_sat (p : Char → Bool) (cs : List Char) (k : Nat) (c : Char)
    (hk : cs[k]? = some c) (hp : p c = true) :
    ∃ j, lastIdx p cs = some j ∧ k ≤ j := by
  have hklen : k < cs.length := (List.getElem?_eq_some.mp hk).1
  have hrev : cs.reverse[cs.length - 1 - k]? = some c := by
    rw [getElem?_reverse_idx cs (cs.length - 1 - k) (by omega)]
    have : cs.length - 1 - (cs.length - 1 - k) = k := by omega
    rw [this]
    exact hk
  obtain ⟨m, hf, hle⟩ := firstIdx_of_sat p cs.reverse (cs.length - 1 - k) c hrev hp
  refine ⟨cs.length - 1 - m, ?_, by omega⟩
  unfold lastIdx
  rw [hf]
  rfl

theorem jsonMatchL_eq (cs : List Char) (i j : Nat) (ci cj : Char)
    (hij : i < j) (hi : cs[i]? = some ci) (hci : isOpenBrace ci = true)
    (hj : cs[j]? = some cj) (hcj : isCloseBrace cj = true) :
    ∃ i0 j0, i0 ≤ i ∧ j ≤ j0 ∧ i0 < j0 ∧
      (∃ c0, cs[i0]? = some c0 ∧ isOpenBrace c0 = true) ∧
      (∀ k c, k < i0 → cs[k]? = some c → isOpenBrace c = false) ∧
      (∃ c1, cs[j0]? = some c1 ∧ isCloseBrace c1 = true) ∧
      (∀ k c, j0 < k → cs[k]? = some c → isCloseBrace c = false) ∧
      jsonMatchL cs = some ((cs.drop i0).take (j0 - i0 + 1)) := by
  obtain ⟨i0, hf, hi0le⟩ := firstIdx_of_sat isOpenBrace cs i ci hi hci
  obtain ⟨j0, hl, hj0ge⟩ := lastIdx_of_sat isCloseBrace cs j cj hj hcj
  have hij0 : i0 < j0 := Nat.lt_of_le_of_lt hi0le (Nat.lt_of_lt_of_le hij hj0ge)
  refine ⟨i0, j0, hi0le, hj0ge, hij0,
    firstIdx_sat _ _ _ hf, firstIdx_min _ _ _ hf,
    lastIdx_sat _ _ _ hl, lastIdx_max _ _ _ hl, ?_⟩
  unfold jsonMatchL
  rw [hf, hl]
  dsimp only
  rw [if_pos hij0]

/-! ### Score-computation lemmas -/

theorem ensureScoreDetails_absent (raw : Json) (h : raw.getField "scoreDetails" = none) :
    ensureScoreDetails raw = raw.setField "scoreDetails" zeroScoreDetails := by
  unfold ensureScoreDetails
  rw [h]

theorem computeScore_overall_nonzero (sd : Json) (n : Int)
    (h : sd.getField "overallScore" = some (Json.num n)) (hn : n ≠ 0) :
    computeScore sd = some n := by
  unfold computeScore
  rw [h]
  dsimp only
  rw [if_neg hn]

theorem computeScore_overall_zero (sd : Json)
    (h : sd.getField "overallScore" = some (Json.num 0)) :
    computeScore sd = meanScore sd := by
  unfold computeScore
  rw [h]
  dsimp only
  rw [if_pos rfl]

theorem parseAnalysisResult_ok_inv (s : String) (j : Json) (sc : Option Int)
    (hok : parseAnalysisResult s = Except.ok (j, sc)) :
    ∃ block raw, jsonMatchStr s = some block ∧ jsonParse block = some raw ∧
      j = ensureScoreDetails raw ∧
      ((∃ sd, j.getField "scoreDetails" = some sd ∧ sc = computeScore sd) ∨
       (j.getField "scoreDetails" = none ∧ sc = none)) := by
  unfold parseAnalysisResult at hok
  cases hm : jsonMatchStr s with
  | none =>
      rw [hm] at hok
      exact Except.noConfusion hok
  | some block =>
      rw [hm] at hok
      dsimp only at hok
      cases hp : jsonParse block with
      | none =>
          rw [hp] at hok
          exact Except.noConfusion hok
      | some raw =>
          rw [hp] at hok
          dsimp only at hok
          cases hsd : (ensureScoreDetails raw).getField "scoreDetails" with
          | some sd =>
              rw [hsd] at hok
              injection hok with hpair
              obtain ⟨hj, hsc⟩ := Prod.mk.inj hpair
              exact ⟨block, raw, rfl, hp, hj.symm,
                Or.inl ⟨sd, hj ▸ hsd, hsc.symm⟩⟩
          | none =>
              rw [hsd] at hok
              injection hok with hpair
              obtain ⟨hj, hsc⟩ := Prod.mk.inj hpair
              exact ⟨block, raw, rfl, hp, hj.symm,
                Or.inr ⟨hj ▸ hsd, hsc.symm⟩⟩

/-! ### Claim theorems -/

/-- C4: an upload whose MIME type is outside the allow-list or whose size
exceeds `maxFileSize` is rejected with the matching validation error, and —
provided the catch block's freshly regenerated cleanup path is not an
existing blob, as holds for a fresh uuid draw — the state is returned
unchanged: no blob and no record is created, and nothing is written. -/
theorem c4_upload_validation_rejects (env : UploadEnv) (opts : ResumeUploadOptions)
    (st : PipelineState)
    (hbad : isAllowedMimeType env.cfg opts.mimeType = false ∨ env.cfg.maxFileSize < opts.size)
    (hfresh : blobExists st.blobs
        (joinPath env.cfg.directory
          (generateFileName opts.originalName env.uuidCatch env.tsCatch)) = false) :
    ((uploadResume env opts st).1 = Except.error DomainError.unsupportedFileType ∨
     (uploadResume env opts st).1 = Except.error DomainError.fileTooLarge) ∧
    (uploadResume env opts st).2 = st := by
  have hclean := uploadCleanup_fresh env opts st hfresh
  cases hm : isAllowedMimeType env.cfg opts.mimeType with
  | false =>
      constructor
      · left
        simp [uploadResume, hm]
      · simp [uploadResume, hm, hclean]
  | true =>
      have hsize : env.cfg.maxFileSize < opts.size := by
        rcases hbad with h | h
        · exact absurd h (by rw [hm]; decide)
        · exact h
      constructor
      · right
        simp [uploadResume, hm, hsize]
      · simp [uploadResume, hm, hsize, hclean]

/-- Witness for C4: a concrete upload with a disallowed MIME type is
rejected and leaves the empty state unchanged. -/
theorem c4_upload_validation_rejects_witness :
    ((uploadResume sampleUploadEnv badTypeOpts emptyState).1
        = Except.error DomainError.unsupportedFileType ∨
     (uploadResume sampleUploadEnv badTypeOpts emptyState).1
        = Except.error DomainError.fileTooLarge) ∧
    (uploadResume sampleUploadEnv badTypeOpts emptyState).2 = emptyState :=
  c4_upload_validation_rejects sampleUploadEnv badTypeOpts emptyState (Or.inl rfl) rfl

/-- C5 (the code bug): when the record save fails after a successful blob
write, the catch block of `uploadResume` re-calls `generateFileName`, which
draws a FRESH uuid, so the cleanup unlink targets a path that was never
written: the just-written blob survives at the written path (and the
original store error is propagated, no record created).  Here the two uuid
draws differ, as independent uuidv4 draws do. -/
theorem c5_cleanup_misses_written_blob :
    (uploadResume saveFailEnv sampleOpts emptyState).1
        = Except.error DomainError.storeFailure ∧
    blobGet (uploadResume saveFailEnv sampleOpts emptyState).2.blobs
        (uploadFilePath saveFailEnv sampleOpts) = some sampleOpts.buffer ∧
    (uploadResume saveFailEnv sampleOpts emptyState).2.records = [] := by
  exact ⟨rfl, rfl, rfl⟩

/-- C7: `deleteResume` fails with NotFound and changes nothing when no
matching record exists; otherwise it succeeds, always removes the record
row — even when the blob unlink fails, which is swallowed — and deletes the
blob best-effort when the unlink works. -/
theorem c7_deleteResume_contract (unlinkFails : Bool) (resumeId : String)
    (userId : Option String) (st : PipelineState) :
    (findRecordOwned st.records resumeId userId = none →
        deleteResume unlinkFails resumeId userId st = (Except.error DomainError.notFound, st)) ∧
    (∀ r, findRecordOwned st.records resumeId userId = some r →
        (deleteResume unlinkFails resumeId userId st).1 = Except.ok () ∧
        (deleteResume unlinkFails resumeId userId st).2.records
          = st.records.filter (fun x => ¬ x.id = resumeId) ∧
        (unlinkFails = true →
          (deleteResume unlinkFails resumeId userId st).2.blobs = st.blobs) ∧
        (unlinkFails = false →
          (deleteResume unlinkFails resumeId userId st).2.blobs
            = if blobExists st.blobs r.filePath then blobDelete st.blobs r.filePath
              else st.blobs)) := by
  constructor
  · intro h
    unfold deleteResume
    rw [h]
  · intro r h
    unfold deleteResume
    rw [h]
    dsimp only
    refine ⟨rfl, rfl, ?_, ?_⟩
    · intro hu
      subst hu
      simp
    · intro hu
      subst hu
      simp

/-- Witness for C7: deleting a concrete stored resume whose blob unlink
fails still removes the record row and leaves the blob in place. -/
theorem c7_deleteResume_contract_witness :
    (deleteResume true "resume-1" none sampleState).1 = Except.ok () ∧
    (deleteResume true "resume-1" none sampleState).2.records = [] ∧
    (deleteResume true "resume-1" none sampleState).2.blobs = sampleState.blobs := by
  have h := (c7_deleteResume_contract true "resume-1" none sampleState).2 sampleRecord rfl
  exact ⟨h.1, h.2.1.trans rfl, h.2.2.1 rfl⟩

/-- C8: the generated storage name is the random uuid, a separator, the
timestamp, and the original file's extension: it depends on the
client-supplied name only through `extname` (the base name never determines
the storage address), and any two draws with distinct equal-length uuids —
as uuidv4 always produces — yield distinct storage names, for any original
names and timestamps. -/
theorem c8_storage_name (n1 n2 u1 u2 : String) (t1 t2 : Nat)
    (hext : extname n1 = extname n2)
    (hlen : u1.length = u2.length) (hne : u1 ≠ u2) :
    (∀ u t, generateFileName n1 u t = generateFileName n2 u t) ∧
    generateFileName n1 u1 t1 ≠ generateFileName n2 u2 t2 := by
  constructor
  · intro u t
    unfold generateFileName
    rw [hext]
  · intro heq
    apply hne
    unfold generateFileName at heq
    have hdata := congrArg String.data heq
    simp only [String.data_append, List.append_assoc] at hdata
    exact String.ext
      (List.append_inj hdata (show u1.data.length = u2.data.length from hlen)).1

/-- Witness for C8 at concrete names, uuids and timestamps. -/
theorem c8_storage_name_witness :
    (∀ u t, generateFileName "cv.txt" u t = generateFileName "resume.txt" u t) ∧
    generateFileName "cv.txt" "aaaa" 1700000000000
      ≠ generateFileName "resume.txt" "bbbb" 1700000000000 :=
  c8_storage_name "cv.txt" "resume.txt" "aaaa" "bbbb" 1700000000000 1700000000000
    rfl rfl (by decide)

/-- C9: after a successful upload (allowed type, size within bound, store
save succeeds, fresh record id), downloading the new record returns exactly
the uploaded bytes — blob write followed by blob read is the identity on
the file contents. -/
theorem c9_upload_download_roundtrip (env : UploadEnv) (opts : ResumeUploadOptions)
    (st : PipelineState)
    (hmime : isAllowedMimeType env.cfg opts.mimeType = true)
    (hsize : ¬ env.cfg.maxFileSize < opts.size)
    (hsave : env.saveFails = false)
    (hfresh : findRecord st.records env.newId = none) :
    (uploadResume env opts st).1 = Except.ok (uploadedRecord env opts) ∧
    downloadResume env.newId opts.userId (uploadResume env opts st).2
      = Except.ok opts.buffer := by
  rw [uploadResume_success env opts st hmime hsize hsave]
  refine ⟨rfl, ?_⟩
  unfold downloadResume getResumeById
  have hfound : findRecordOwned (st.records ++ [uploadedRecord env opts]) env.newId
      (some opts.userId) = some (uploadedRecord env opts) := by
    have hown : ownerMatches (uploadedRecord env opts) (some opts.userId) = true :=
      decide_eq_true rfl
    exact findRecordOwned_append_singleton st.records (uploadedRecord env opts)
      (some opts.userId) hfresh hown
  rw [hfound]
  dsimp only [uploadedRecord]
  rw [blobGet_write_self]

/-- Witness for C9: a concrete plain-text upload round-trips its bytes. -/
theorem c9_upload_download_roundtrip_witness :
    (uploadResume sampleUploadEnv sampleOpts emptyState).1
        = Except.ok (uploadedRecord sampleUploadEnv sampleOpts) ∧
    downloadResume "resume-1" "guest" (uploadResume sampleUploadEnv sampleOpts emptyState).2
      = Except.ok sampleOpts.buffer :=
  c9_upload_download_roundtrip sampleUploadEnv sampleOpts emptyState rfl
    (by decide) rfl rfl

/-- C3: when the completion-API response contains no `\x7b...\x7d` block
(the greedy pattern finds no match; the hypothesis also covers an outright
API failure), `analyzeResume` on an existing record persists
`status=failed` together with a non-null, non-empty error message, and
propagates a domain error to the caller. -/
theorem c3_no_block_fails (env : AnalyzeEnv) (resumeId : String) (st : PipelineState)
    (r : ResumeRecord) (hfind : findRecord st.records resumeId = some r)
    (hnoblock : ∀ text, env.aiResponse = Except.ok text → jsonMatchStr text = none) :
    (∃ msg, (analyzeResume env resumeId st).1
        = Except.error (DomainError.analysisFailed msg)) ∧
    (∃ stf rfail, (analyzeResume env resumeId st).2.getLast? = some stf ∧
        findRecord stf.records resumeId = some rfail ∧
        rfail.status = ResumeStatus.failed ∧
        ∃ e, rfail.error = some e ∧ e ≠ "") := by
  obtain ⟨rfin, htrace, hfindf, hcase⟩ := analyzeResume_found env resumeId st r hfind
  rcases hcase with ⟨msg, hne, hrfin, hres⟩ | ⟨text, analysis, score, hai, hparse, hrfin, hres⟩
  · refine ⟨⟨_, hres⟩,
      { st with records :=
          setRecord (setRecord st.records { r with status := ResumeStatus.processing }) rfin },
      rfin, ?_, hfindf, ?_, msg, ?_, hne⟩
    · rw [htrace]
      rfl
    · rw [hrfin]
    · rw [hrfin]
  · exfalso
    have hnone := hnoblock text hai
    unfold parseAnalysisResult at hparse
    rw [hnone] at hparse
    exact Except.noConfusion hparse

/-- Witness for C3: a concrete prose-only response on a stored record. -/
theorem c3_no_block_fails_witness :
    (∃ msg, (analyzeResume noBlockEnv "resume-1" sampleState).1
        = Except.error (DomainError.analysisFailed msg)) ∧
    (∃ stf rfail, (analyzeResume noBlockEnv "resume-1" sampleState).2.getLast? = some stf ∧
        findRecord stf.records "resume-1" = some rfail ∧
        rfail.status = ResumeStatus.failed ∧
        ∃ e, rfail.error = some e ∧ e ≠ "") :=
  c3_no_block_fails noBlockEnv "resume-1" sampleState sampleRecord rfl
    (fun _ ht => by cases ht; rfl)

/-- C10: the parser applies no schema validation beyond `JSON.parse`: when
the extracted block is the empty object, `analyzeResume` on an existing
(readable, plain-text) record completes successfully, persisting
`status=analyzed`, an analysis holding only the synthesized zeroed
`scoreDetails`, and `score = 0`. -/
theorem c10_empty_block_analyzed (env : AnalyzeEnv) (resumeId : String) (st : PipelineState)
    (r : ResumeRecord) (t : String) (bytes : List Nat)
    (hfind : findRecord st.records resumeId = some r)
    (hmime : r.mimeType = "text/plain")
    (hblob : blobGet st.blobs r.filePath = some bytes)
    (hai : env.aiResponse = Except.ok t)
    (hmatch : jsonMatchStr t = some "\x7b\x7d") :
    ∃ rfin, (analyzeResume env resumeId st).1 = Except.ok rfin ∧
      rfin.status = ResumeStatus.analyzed ∧
      rfin.analysis = some (Json.obj [("scoreDetails", zeroScoreDetails)]) ∧
      rfin.score = some 0 ∧
      ∃ stf, (analyzeResume env resumeId st).2.getLast? = some stf ∧
        findRecord stf.records resumeId = some rfin := by
  have hid : r.id = resumeId := findRecord_id _ _ _ hfind
  have hfind1 :
      findRecord (setRecord st.records { r with status := ResumeStatus.processing }) resumeId
        = some { r with status := ResumeStatus.processing } :=
    findRecord_setRecord_eq' st.records _ resumeId r hfind hid
  have hext : extractTextFromFile st.blobs r.filePath r.mimeType
      = Except.ok (String.mk (bytes.map Char.ofNat)) := by
    rw [hmime]
    exact extractTextFromFile_text_plain st.blobs r.filePath bytes hblob
  rw [analyzeResume_unfold env resumeId st r hfind]
  rw [hext]
  dsimp only
  have hcall : callAIService env
      (buildAnalysisPrompt (String.mk (bytes.map Char.ofNat)) r.jobTitle r.jobDescription)
      = Except.ok t := by
    unfold callAIService
    rw [hai]
  rw [hcall]
  dsimp only
  rw [parseAnalysisResult_empty_object t hmatch]
  dsimp only
  rw [updateResumeAnalysis_eq resumeId _ _ _ _ hfind1]
  dsimp only
  exact ⟨_, rfl, rfl, rfl, rfl, _, rfl, findRecord_setRecord_eq' _ _ _ _ hfind1 hid⟩

/-- Witness for C10: a concrete `result: \x7b\x7d done` response on a
stored plain-text record. -/
theorem c10_empty_block_analyzed_witness :
    ∃ rfin, (analyzeResume emptyObjEnv "resume-1" sampleState).1 = Except.ok rfin ∧
      rfin.status = ResumeStatus.analyzed ∧
      rfin.analysis = some (Json.obj [("scoreDetails", zeroScoreDetails)]) ∧
      rfin.score = some 0 ∧
      ∃ stf, (analyzeResume emptyObjEnv "resume-1" sampleState).2.getLast? = some stf ∧
        findRecord stf.records "resume-1" = some rfin :=
  c10_empty_block_analyzed emptyObjEnv "resume-1" sampleState sampleRecord
    "result: \x7b\x7d done" [104, 105] rfl rfl rfl rfl rfl

/-- C6: status only moves forward.  (a) `uploadResume` never touches an
existing record, so nothing re-enters `uploaded`; (b) every adjacent pair
of persisted states in an `analyzeResume` trace changes each existing
record's status only along an allowed edge (stutter, to `processing`, or
`processing` to a terminal state); (c) re-invoking analyze on a record in
any state first forces `processing`; (d) allowed edges never re-enter
`uploaded` from another state. -/
theorem c6_status_forward_only (uenv : UploadEnv) (opts : ResumeUploadOptions)
    (env : AnalyzeEnv) (resumeId : String) (st : PipelineState) :
    (∀ rid r r', findRecord st.records rid = some r →
        findRecord (uploadResume uenv opts st).2.records rid = some r' → r' = r) ∧
    (∀ pre post, (pre, post) ∈ chainSteps st (analyzeResume env resumeId st).2 →
        ∀ rid r r', findRecord pre.records rid = some r →
          findRecord post.records rid = some r' → allowedStep r.status r'.status) ∧
    (∀ r, findRecord st.records resumeId = some r →
        ∃ st1 rest, (analyzeResume env resumeId st).2 = st1 :: rest ∧
          ∃ r1, findRecord st1.records resumeId = some r1 ∧
            r1.status = ResumeStatus.processing) ∧
    (∀ s s', allowedStep s s' → s' = ResumeStatus.uploaded → s = ResumeStatus.uploaded) := by
  refine ⟨?_, ?_, ?_, ?_⟩
  · intro rid r r' hr hr'
    rcases uploadResume_records_shape uenv opts st with hs | hs
    · rw [hs, hr] at hr'
      exact (Option.some.inj hr').symm
    · rw [hs, findRecord_append_left st.records _ rid r hr] at hr'
      exact (Option.some.inj hr').symm
  · intro pre post hmem rid rpre rpost hpre hpost
    cases hfind : findRecord st.records resumeId with
    | none =>
        rw [analyzeResume_not_found env resumeId st hfind] at hmem
        simp [chainSteps] at hmem
    | some r =>
        have hid : r.id = resumeId := findRecord_id _ _ _ hfind
        obtain ⟨rfin, htrace, hfindf, hcase⟩ := analyzeResume_found env resumeId st r hfind
        rw [htrace] at hmem
        have hfinstatus : rfin.status = ResumeStatus.failed ∨
            rfin.status = ResumeStatus.analyzed := by
          rcases hcase with ⟨msg, _, hrfin, _⟩ | ⟨text, analysis, score, _, _, hrfin, _⟩
          · left
            rw [hrfin]
          · right
            rw [hrfin]
        have hfinid : rfin.id = resumeId := by
          rcases hcase with ⟨msg, _, hrfin, _⟩ | ⟨text, analysis, score, _, _, hrfin, _⟩
          · rw [hrfin]
            exact hid
          · rw [hrfin]
            exact hid
        have hfind1 :
            findRecord (setRecord st.records { r with status := ResumeStatus.processing })
              resumeId = some { r with status := ResumeStatus.processing } :=
          findRecord_setRecord_eq' st.records _ resumeId r hfind hid
        simp only [chainSteps, List.mem_cons, List.not_mem_nil, or_false] at hmem
        rcases hmem with hp | hp
        · -- step st → st1: the forced processing write
          rw [Prod.mk.injEq] at hp
          obtain ⟨hpre_eq, hpost_eq⟩ := hp
          rw [hpre_eq] at hpre
          rw [hpost_eq] at hpost
          by_cases hrid : rid = resumeId
          · subst hrid
            have h1 : r = rpre := Option.some.inj (hfind.symm.trans hpre)
            have h2 : ({ r with status := ResumeStatus.processing } : ResumeRecord) = rpost :=
              Option.some.inj (hfind1.symm.trans hpost)
            rw [← h1, ← h2]
            exact Or.inr (Or.inl rfl)
          · have hne : rid ≠ ({ r with status := ResumeStatus.processing } : ResumeRecord).id :=
              fun hc => hrid (hc.trans hid)
            have hpost' : findRecord
                (setRecord st.records { r with status := ResumeStatus.processing }) rid
                = some rpost := hpost
            rw [findRecord_setRecord_ne st.records _ rid hne] at hpost'
            have h3 : rpre = rpost := Option.some.inj (hpre.symm.trans hpost')
            exact Or.inl (congrArg ResumeRecord.status h3.symm)
        · -- step st1 → st2: the terminal write
          rw [Prod.mk.injEq] at hp
          obtain ⟨hpre_eq, hpost_eq⟩ := hp
          rw [hpre_eq] at hpre
          rw [hpost_eq] at hpost
          by_cases hrid : rid = resumeId
          · subst hrid
            have h1 : ({ r with status := ResumeStatus.processing } : ResumeRecord) = rpre :=
              Option.some.inj (hfind1.symm.trans hpre)
            have h2 : rfin = rpost := Option.some.inj (hfindf.symm.trans hpost)
            rw [← h1, ← h2]
            rcases hfinstatus with hf | hf
            · exact Or.inr (Or.inr ⟨rfl, Or.inr hf⟩)
            · exact Or.inr (Or.inr ⟨rfl, Or.inl hf⟩)
          · have hne1 : rid ≠ ({ r with status := ResumeStatus.processing } : ResumeRecord).id :=
              fun hc => hrid (hc.trans hid)
            have hne2 : rid ≠ rfin.id := fun hc => hrid (hc.trans hfinid)
            have hpre' : findRecord
                (setRecord st.records { r with status := ResumeStatus.processing }) rid
                = some rpre := hpre
            have hpost' : findRecord
                (setRecord (setRecord st.records { r with status := ResumeStatus.processing })
                  rfin) rid = some rpost := hpost
            rw [findRecord_setRecord_ne _ rfin rid hne2,
              findRecord_setRecord_ne st.records _ rid hne1] at hpost'
            rw [findRecord_setRecord_ne st.records _ rid hne1] at hpre'
            have h3 : rpre = rpost := Option.some.inj (hpre'.symm.trans hpost')
            exact Or.inl (congrArg ResumeRecord.status h3.symm)
  · intro r hfind
    have hid : r.id = resumeId := findRecord_id _ _ _ hfind
    obtain ⟨rfin, htrace, hfindf, hcase⟩ := analyzeResume_found env resumeId st r hfind
    exact ⟨_, _, htrace, _, findRecord_setRecord_eq' st.records _ resumeId r hfind hid, rfl⟩
  · intro s s' h hs'
    rcases h with h | h | ⟨h1, h2 | h2⟩
    · rw [← h, hs']
    · exact absurd (hs' ▸ h) (by decide)
    · exact absurd (hs' ▸ h2) (by decide)
    · exact absurd (hs' ▸ h2) (by decide)

/-- Witness for C6: on a concrete stored record, the trace of a
(re-)analysis starts with the forced `processing` write. -/
theorem c6_status_forward_only_witness :
    ∃ st1 rest, (analyzeResume noBlockEnv "resume-1" sampleState).2 = st1 :: rest ∧
      ∃ r1, findRecord st1.records "resume-1" = some r1 ∧
        r1.status = ResumeStatus.processing :=
  (c6_status_forward_only sampleUploadEnv sampleOpts noBlockEnv "resume-1"
    sampleState).2.2.1 sampleRecord rfl

/-- C1 counterexample: with `overallScore` present but equal to 0 while the
four sub-scores are 40, the code's `||` fallback computes the mean 40
instead of the present explicit value 0 — and a successful analyze persists
`score = 40`, not the present `overallScore` 0. -/
theorem c1_counterexample :
    parseAnalysisResult zeroOverallText = Except.ok (zeroOverallJson, some 40) ∧
    Option.bind (zeroOverallJson.getField "scoreDetails")
      (fun sd => sd.getField "overallScore") = some (Json.num 0) ∧
    (∃ rfin, (analyzeResume zeroOverallEnv "resume-1" sampleState).1 = Except.ok rfin ∧
      rfin.score = some 40) ∧
    (40 : Int) ≠ 0 := by
  refine ⟨rfl, rfl, ⟨_, rfl, rfl⟩, by decide⟩

/-- C1 (amended): after parsing a completion response, the zeroed
`scoreDetails` default is synthesized when the field is absent from the
parsed JSON; the overall score is the explicit `overallScore` only when it
is truthy — a present-but-zero `overallScore` falls through to the
arithmetic mean of the four sub-scores rounded half-up (`meanScore`) — and
after a successful analyze the persisted `score` equals
`analysis.scoreDetails.overallScore` whenever that field is present,
numeric, and non-zero. -/
theorem c1_score_rule :
    (∀ s j sc block raw, parseAnalysisResult s = Except.ok (j, sc) →
        jsonMatchStr s = some block → jsonParse block = some raw →
        (raw.getField "scoreDetails" = none →
          j = raw.setField "scoreDetails" zeroScoreDetails) ∧
        (∀ sd, j.getField "scoreDetails" = some sd →
          (∀ n, sd.getField "overallScore" = some (Json.num n) → n ≠ 0 → sc = some n) ∧
          (sd.getField "overallScore" = some (Json.num 0) → sc = meanScore sd))) ∧
    (∀ env resumeId st r rfin a sd n,
        findRecord st.records resumeId = some r →
        (analyzeResume env resumeId st).1 = Except.ok rfin →
        rfin.analysis = some a → a.getField "scoreDetails" = some sd →
        sd.getField "overallScore" = some (Json.num n) → n ≠ 0 →
        rfin.score = some n) := by
  constructor
  · intro s j sc block raw hok hm hp
    obtain ⟨block', raw', hm', hp', hj, hsc⟩ := parseAnalysisResult_ok_inv s j sc hok
    have hb : block' = block := Option.some.inj (hm'.symm.trans hm)
    rw [hb] at hp'
    have hr : raw' = raw := Option.some.inj (hp'.symm.trans hp)
    rw [hr] at hj
    constructor
    · intro habs
      rw [hj, ensureScoreDetails_absent raw habs]
    · intro sd hsd
      rcases hsc with ⟨sd0, hsd0, hsc0⟩ | ⟨hnone, _⟩
      · obtain rfl : sd0 = sd := Option.some.inj (hsd0.symm.trans hsd)
        constructor
        · intro n hov hn
          rw [hsc0, computeScore_overall_nonzero sd0 n hov hn]
        · intro hov
          rw [hsc0, computeScore_overall_zero sd0 hov]
      · rw [hnone] at hsd
        cases hsd
  · intro env resumeId st r rfin a sd n hfind hok hana hsd hov hn
    obtain ⟨rfin', htrace, hfindf, hcase⟩ := analyzeResume_found env resumeId st r hfind
    rcases hcase with ⟨msg, _, _, hres⟩ | ⟨text, analysis, score, hai, hparse, hrfin, hres⟩
    · rw [hres] at hok
      exact Except.noConfusion hok
    · rw [hres] at hok
      have hrr : rfin' = rfin := Option.some.inj (congrArg
        (fun e => match e with | Except.ok v => some v | Except.error _ => none) hok)
      rw [hrr] at hrfin
      have hana' : rfin.analysis = some analysis := by rw [hrfin]
      have haa : analysis = a := Option.some.inj (hana'.symm.trans hana)
      rw [haa] at hparse
      obtain ⟨block, raw, hm2, hp2, hj, hsc⟩ :=
        parseAnalysisResult_ok_inv text a score hparse
      rcases hsc with ⟨sd0, hsd0, hsc0⟩ | ⟨hnone, _⟩
      · have hss : sd0 = sd := Option.some.inj (hsd0.symm.trans hsd)
        rw [hss] at hsc0
        have hscore : score = some n := by
          rw [hsc0, computeScore_overall_nonzero sd n hov hn]
        rw [hrfin]
        dsimp only
        rw [hscore]
      · rw [hnone] at hsd
        cases hsd

set_option maxRecDepth 8192 in
/-- Witness for C1 at the spec's §8 scenario response (sub-scores
50/60/70/80, explicit `overallScore` 65): the persisted score is 65. -/
theorem c1_score_rule_witness : (some (65 : Int) : Option Int) = some 65 :=
  ((c1_score_rule.1 scenario65Text scenario65Json (some 65) scenario65Block scenario65Json
      rfl rfl rfl).2 scenario65Sd rfl).1 65 rfl (by decide)

/-- C2 counterexample: on a response holding two JSON objects with junk
between, the code's greedy regex spans from the first opening brace to the
LAST closing brace of the whole text (returning the entire string), so the
strict parse throws and `parseAnalysisResult` fails — whereas the claim's
"first balanced block" is the first object alone, which parses fine. -/
theorem c2_counterexample :
    jsonMatchStr twoBlocksText = some twoBlocksText ∧
    specFirstBalancedBlock twoBlocksText.toList = some ("\x7b\"a\":1\x7d").toList ∧
    (jsonParse "\x7b\"a\":1\x7d").isSome = true ∧
    parseAnalysisResult twoBlocksText
      = Except.error "解析AI分析结果失败: JSON解析错误" ∧
    jsonMatchStr twoBlocksText ≠ some "\x7b\"a\":1\x7d" := by
  refine ⟨rfl, rfl, rfl, rfl, by decide⟩

/-- C2 (amended): whenever some opening brace precedes some closing brace,
the response parser extracts the GREEDY span — from the first opening brace
of the text to its last closing brace, not the first balanced block — and
strictly JSON-parses exactly that span, failing only if the parse throws. -/
theorem c2_greedy_extraction (s : String) (i j : Nat) (ci cj : Char)
    (hij : i < j) (hi : s.toList[i]? = some ci) (hci : isOpenBrace ci = true)
    (hj : s.toList[j]? = some cj) (hcj : isCloseBrace cj = true) :
    ∃ i0 j0, i0 ≤ i ∧ j ≤ j0 ∧ i0 < j0 ∧
      (∃ c0, s.toList[i0]? = some c0 ∧ isOpenBrace c0 = true) ∧
      (∀ k c, k < i0 → s.toList[k]? = some c → isOpenBrace c = false) ∧
      (∃ c1, s.toList[j0]? = some c1 ∧ isCloseBrace c1 = true) ∧
      (∀ k c, j0 < k → s.toList[k]? = some c → isCloseBrace c = false) ∧
      jsonMatchStr s = some (String.mk ((s.toList.drop i0).take (j0 - i0 + 1))) ∧
      parseAnalysisResult s =
        (match jsonParse (String.mk ((s.toList.drop i0).take (j0 - i0 + 1))) with
         | none => Except.error "解析AI分析结果失败: JSON解析错误"
         | some analysisData =>
             match (ensureScoreDetails analysisData).getField "scoreDetails" with
             | some sd => Except.ok (ensureScoreDetails analysisData, computeScore sd)
             | none => Except.ok (ensureScoreDetails analysisData, none)) := by
  obtain ⟨i0, j0, h1, h2, h3, h4, h5, h6, h7, hmatch⟩ :=
    jsonMatchL_eq s.toList i j ci cj hij hi hci hj hcj
  have hms : jsonMatchStr s = some (String.mk ((s.toList.drop i0).take (j0 - i0 + 1))) := by
    unfold jsonMatchStr
    rw [hmatch]
    rfl
  refine ⟨i0, j0, h1, h2, h3, h4, h5, h6, h7, hms, ?_⟩
  unfold parseAnalysisResult
  rw [hms]

/-- Witness for C2 on the two-object response text. -/
theorem c2_greedy_extraction_witness :
    ∃ i0 j0, i0 ≤ 0 ∧ 16 ≤ j0 ∧ i0 < j0 ∧
      (∃ c0, twoBlocksText.toList[i0]? = some c0 ∧ isOpenBrace c0 = true) ∧
      (∀ k c, k < i0 → twoBlocksText.toList[k]? = some c → isOpenBrace c = false) ∧
      (∃ c1, twoBlocksText.toList[j0]? = some c1 ∧ isCloseBrace c1 = true) ∧
      (∀ k c, j0 < k → twoBlocksText.toList[k]? = some c → isCloseBrace c = false) ∧
      jsonMatchStr twoBlocksText
        = some (String.mk ((twoBlocksText.toList.drop i0).take (j0 - i0 + 1))) ∧
      parseAnalysisResult twoBlocksText =
        (match jsonParse (String.mk ((twoBlocksText.toList.drop i0).take (j0 - i0 + 1))) with
         | none => Except.error "解析AI分析结果失败: JSON解析错误"
         | some analysisData =>
             match (ensureScoreDetails analysisData).getField "scoreDetails" with
             | some sd => Except.ok (ensureScoreDetails analysisData, computeScore sd)
             | none => Except.ok (ensureScoreDetails analysisData, none)) :=
  c2_greedy_extraction twoBlocksText 0 16 (Char.ofNat 123) (Char.ofNat 125)
    (by decide) rfl rfl rfl rfl

end ResumeHelper
